import Mathlib

/-!
# Verification of `bevy_mod_desync` (`src/lib.rs`)

Shallow embedding of the fingerprinting engine: the serializer registry,
the entity-ordering strategies (`sort_entities_ids`, `sort_from_entity_map`),
the tracked-field selector (`get_tracked_components`), the fingerprint
pipeline (`calculate_crc`), and the `Crc` resource with `update_crc`.

Modelling conventions:
* `Entity`, `ComponentId`, `ArchetypeId` are the numeric identifiers `Nat`.
* A type-erased component value (a `Ptr` in the source) is `Value`; a
  registered serializer is an arbitrary function `Value → String`
  (the source stores `unsafe fn(Ptr) -> String` in a `HashMap`).
* A Rust `panic!` / `.unwrap()` failure is modelled as `none`: every
  function that can panic returns an `Option`.
* The `World` holds the archetype table, the type-erased component data,
  and the resources (`DesyncPluginData`, `Crc`, the optional entity
  mapper).  The pluggable `entity_sort` closure stored inside
  `DesyncPluginData` would make `World` recursive, so it is passed to
  `calculate_crc` / `update_crc` explicitly, exactly as the source reads
  it back out of the resource before calling it.
* `TrackDesync` is registered by `DesyncPlugin::build` before any
  computation, so `world.component_id::<TrackDesync>().unwrap()` is
  modelled by the always-present field `trackDesyncId`.
-/

abbrev Entity := Nat
abbrev ComponentId := Nat
abbrev ArchetypeId := Nat

/-- A type-erased component value (a `Ptr` target in the source). -/
structure Value where
  payload : String
deriving DecidableEq

/-- An archetype: its identifier, the component types it stores, and the
entities currently stored in it. -/
structure Archetype where
  id : ArchetypeId
  componentIds : List ComponentId
  entities : List Entity
deriving DecidableEq

/-- `Archetype::contains(component_id)`. -/
def Archetype.containsComp (a : Archetype) (c : ComponentId) : Bool :=
  a.componentIds.contains c

/-- The `DesyncPluginData` resource.  `serialize_fn_registry` is the
`HashMap<ComponentId, unsafe fn(Ptr) -> String>`, modelled as an
association list. -/
structure DesyncPluginData where
  serialize_fn_registry : List (ComponentId × (Value → String))

/-- `DesyncPluginData::serialize`: indexes the registry `HashMap`.  In Rust
indexing with a missing key panics; the panic is modelled as `none`. -/
def DesyncPluginData.serialize (d : DesyncPluginData) (ptr : Value) (id : ComponentId) :
    Option String :=
  (d.serialize_fn_registry.lookup id).map (fun f => f ptr)

/-- The `Crc` resource: `struct Crc(pub u16)`. -/
structure Crc where
  val : Nat
deriving DecidableEq

/-- `#[derive(Default)]` on `Crc(u16)` gives `Crc(0)`. -/
def Crc.default : Crc := Crc.mk 0

/-- An entity-mapper resource: the `Mapper: EnumerateEntities + Resource`
type parameter of `sort_from_entity_map`.  `entries` is what
`iter_entities` returns; `mapFn` is `EntityMapper::map_entity`. -/
structure Mapper where
  entries : List (Entity × Entity)
  mapFn : Entity → Entity

/-- One row of the type-erased component storage. -/
structure ComponentEntry where
  entity : Entity
  component : ComponentId
  value : Value

/-- The ECS world, restricted to what the fingerprinting engine reads. -/
structure World where
  archetypes : List Archetype
  componentData : List ComponentEntry
  desyncData : DesyncPluginData
  trackDesyncId : ComponentId
  crcRes : Crc
  mapperRes : Option Mapper

/-- `World::get_entity`: look up the archetype storing this entity;
`none` when the entity does not exist. -/
def World.get_entity (w : World) (e : Entity) : Option Archetype :=
  w.archetypes.find? (fun a => a.entities.contains e)

/-- `EntityRef::contains::<TrackDesync>()` for an entity looked up in the
world (false when the entity does not exist). -/
def World.entityContainsTrack (w : World) (e : Entity) : Bool :=
  match w.get_entity e with
  | some a => a.containsComp w.trackDesyncId
  | none => false

/-- `World::get_by_id(entity, component_id)`: read-only type-erased access
to one component value. -/
def World.get_by_id (w : World) (e : Entity) (c : ComponentId) : Option Value :=
  (w.componentData.find? (fun row => row.entity == e && row.component == c)).map
    (fun row => row.value)

/-- `World::iter_entities`: every entity of every archetype. -/
def World.iter_entities (w : World) : List Entity :=
  w.archetypes.flatMap (fun a => a.entities)

/-- `get_tracked_components`: the component ids of the entity's archetype
that have a registered serializer, sorted ascending (`components.sort()`).
The source unwraps `world.get_entity(entity)`, so a missing entity panics:
`none`. -/
def get_tracked_components (entity : Entity) (w : World) : Option (List ComponentId) :=
  (w.get_entity entity).map (fun archetype =>
    (archetype.componentIds.filter
        (fun c => (w.desyncData.serialize_fn_registry.lookup c).isSome)).mergeSort
      (fun a b => a ≤ b))

/-- `sort_entities_ids`: archetypes containing `TrackDesync`, sorted by
archetype id, flattened to their entities sorted by entity id. -/
def sort_entities_ids (w : World) : List Entity :=
  ((w.archetypes.filter (fun a => a.containsComp w.trackDesyncId)).mergeSort
      (fun a b => a.id ≤ b.id)).flatMap
    (fun archetype => archetype.entities.mergeSort (fun a b => a ≤ b))

/-- `sort_from_entity_map`: unwraps the mapper resource (`none` when the
resource is absent), then either sorts this world's tracked entities by
their own id (`from_self`), or sorts the mapper's entries by the first
(reference-side) entity and maps each through `map_entity`. -/
def sort_from_entity_map (w : World) (from_self : Bool) : Option (List Entity) :=
  (w.mapperRes).map (fun entity_map =>
    let entities := w.iter_entities.filter (fun e => w.entityContainsTrack e)
    if from_self then
      entities.mergeSort (fun a b => a ≤ b)
    else
      let sorted := entity_map.entries.mergeSort (fun a b => a.1 ≤ b.1)
      sorted.map (fun e => entity_map.mapFn e.1))

/-- One round of the bit-reflected CRC: shift right, xor with the
reflected CRC-16/IBM-SDLC polynomial (0x1021 reflected = 0x8408) when the
low bit was set. -/
def crcRound (crc : Nat) : Nat :=
  if crc % 2 = 1 then (crc / 2) ^^^ 0x8408 else crc / 2

/-- Iterate `crcRound`. -/
def crcRounds : Nat → Nat → Nat
  | 0, crc => crc
  | n + 1, crc => crcRounds n (crcRound crc)

/-- Fold one input byte into the CRC state (reflected algorithm). -/
def crcByte (crc b : Nat) : Nat :=
  crcRounds 8 (crc ^^^ b)

/-- CRC-16/IBM-SDLC (a.k.a. CRC-16/X-25): width 16, poly 0x1021,
init 0xFFFF, refin = refout = true, xorout 0xFFFF — the parameters of
`crc::CRC_16_IBM_SDLC` used on line 202 of the source, in the standard
bit-reflected formulation. -/
def crc16_ibm_sdlc (bytes : List Nat) : Nat :=
  (bytes.foldl crcByte 0xFFFF) ^^^ 0xFFFF

/-- UTF-8 encoding of one Unicode scalar value. -/
def utf8EncodeCharNat (c : Char) : List Nat :=
  let n := c.toNat
  if n < 0x80 then [n]
  else if n < 0x800 then [0xC0 + n / 0x40, 0x80 + n % 0x40]
  else if n < 0x10000 then [0xE0 + n / 0x1000, 0x80 + n / 0x40 % 0x40, 0x80 + n % 0x40]
  else [0xF0 + n / 0x40000, 0x80 + n / 0x1000 % 0x40, 0x80 + n / 0x40 % 0x40,
    0x80 + n % 0x40]

/-- `str::as_bytes`: the UTF-8 bytes of a string. -/
def strBytes (s : String) : List Nat :=
  s.data.flatMap utf8EncodeCharNat

/-- One iteration of the entity loop in `calculate_crc`: computes the
tracked components (panics — `none` — if the entity does not exist),
re-checks the `TrackDesync` marker (`continue` on failure, keeping the
accumulated input unchanged), then appends each tracked component's
serialization. -/
def crcEntityStep (w : World) (acc : String) (entity : Entity) : Option String := do
  let components ← get_tracked_components entity w
  let archetype ← w.get_entity entity
  if !(archetype.containsComp w.trackDesyncId) then
    pure acc
  else
    components.foldlM (fun s c => do
      let ptr ← w.get_by_id entity c
      let str ← w.desyncData.serialize ptr c
      pure (s ++ str)) acc

/-- `calculate_crc`: build the concatenated input string by walking the
entities produced by the ordering strategy, then checksum its UTF-8
bytes.  `entity_sort` is the closure the source reads from the
`DesyncPluginData` resource. -/
def calculate_crc (entity_sort : World → List Entity) (w : World) : Option Nat := do
  let entities := entity_sort w
  let crc_input ← entities.foldlM (crcEntityStep w) ""
  pure (crc16_ibm_sdlc (strBytes crc_input))

/-- `update_crc`: recompute the checksum and overwrite the `Crc`
resource. -/
def update_crc (entity_sort : World → List Entity) (w : World) : Option World :=
  (calculate_crc entity_sort w).map (fun crc => { w with crcRes := Crc.mk crc })

/-!
## Spec-side definitions

These restate §4.3/§4.4 of the specification in the spec's own words, to
be compared with the source-translated functions above.
-/

/-- Whether a component type is present in the serializer registry. -/
def isRegistered (w : World) (c : ComponentId) : Bool :=
  (w.desyncData.serialize_fn_registry.lookup c).isSome

/-- Spec-side: the serialized form of one field (total; the `""` default
is never reached under the theorems' hypotheses). -/
def specFieldStr (w : World) (e : Entity) (c : ComponentId) : String :=
  ((w.get_by_id e c).bind (fun v => w.desyncData.serialize v c)).getD ""

/-- Spec-side (§4.3): the selector order — component types attached to the
entity's archetype and present in the registry, ascending. -/
def specSelectedFields (w : World) (a : Archetype) : List ComponentId :=
  (a.componentIds.filter (fun c => isRegistered w c)).mergeSort (fun a b => a ≤ b)

/-- Spec-side (§4.4): what one entity contributes to the checksum input —
its tracked fields' serializations concatenated with no delimiter;
nothing when the tracking marker is absent or the entity is missing. -/
def specEntityStr (w : World) (e : Entity) : String :=
  match w.get_entity e with
  | none => ""
  | some a =>
    if a.containsComp w.trackDesyncId then
      String.join ((specSelectedFields w a).map (specFieldStr w e))
    else ""

/-- Spec-side (§4.4): the whole checksum input — per-entity contributions
concatenated with no delimiter, in ordering-strategy order. -/
def specConcat (entity_sort : World → List Entity) (w : World) : String :=
  String.join ((entity_sort w).map (specEntityStr w))

/-- Every component of the entity's archetype has a stored value — the
ECS storage invariant `calculate_crc` relies on when it unwraps
`world.get_by_id`. -/
def World.entityDataComplete (w : World) (e : Entity) : Prop :=
  ∀ c ∈ ((w.get_entity e).map Archetype.componentIds).getD [],
    (w.get_by_id e c).isSome

instance (w : World) (e : Entity) : Decidable (w.entityDataComplete e) := by
  unfold World.entityDataComplete; infer_instance

/-! ## Helper lemmas -/

theorem string_append_assoc (a b c : String) : a ++ b ++ c = a ++ (b ++ c) :=
  String.ext (by simp)

theorem string_foldl_append (l : List String) (a : String) :
    l.foldl (fun r s => r ++ s) a = a ++ l.foldl (fun r s => r ++ s) "" := by
  induction l generalizing a with
  | nil => simp
  | cons s l ih =>
    simp only [List.foldl_cons, String.empty_append]
    rw [ih (a ++ s), ih s, string_append_assoc]

theorem string_join_cons (s : String) (l : List String) :
    String.join (s :: l) = s ++ String.join l := by
  simp only [String.join, List.foldl_cons, String.empty_append]
  exact string_foldl_append l s

theorem serialize_isSome_of_registered (w : World) (c : ComponentId) (v : Value)
    (h : isRegistered w c) : (w.desyncData.serialize v c).isSome := by
  unfold isRegistered at h
  unfold DesyncPluginData.serialize
  cases hl : w.desyncData.serialize_fn_registry.lookup c with
  | none => rw [hl] at h; simp at h
  | some f => simp

theorem mem_get_tracked_components {w : World} {e : Entity} {l : List ComponentId}
    (hl : get_tracked_components e w = some l) {c : ComponentId} (hc : c ∈ l) :
    (∃ a, w.get_entity e = some a ∧ c ∈ a.componentIds) ∧ isRegistered w c := by
  unfold get_tracked_components at hl
  cases hx : w.get_entity e with
  | none => rw [hx] at hl; simp at hl
  | some a =>
    rw [hx] at hl
    simp only [Option.map_some', Option.some.injEq] at hl
    subst hl
    rw [List.mem_mergeSort, List.mem_filter] at hc
    exact ⟨⟨a, rfl, hc.1⟩, hc.2⟩

/-! ## Concrete worlds used by the witnesses -/

/-- A world with one tracked archetype (id 0, components `{1, 2}` where 1
is the `TrackDesync` marker and 2 a registered component), one entity 5
whose component 2 serializes to `"7"`. -/
def exampleWorld : World where
  archetypes := [⟨0, [1, 2], [5]⟩]
  componentData := [⟨5, 1, ⟨""⟩⟩, ⟨5, 2, ⟨"7"⟩⟩]
  desyncData := ⟨[(2, fun v => v.payload)]⟩
  trackDesyncId := 1
  crcRes := Crc.default
  mapperRes := some ⟨[(5, 5)], fun e => e⟩

/-- A world whose only archetype lacks the `TrackDesync` marker. -/
def noMarkWorld : World where
  archetypes := [⟨3, [2], [7]⟩]
  componentData := [⟨7, 2, ⟨"9"⟩⟩]
  desyncData := ⟨[(2, fun v => v.payload)]⟩
  trackDesyncId := 1
  crcRes := Crc.default
  mapperRes := none

/-- The empty world: no archetypes, no data, empty registry. -/
def emptyWorld : World where
  archetypes := []
  componentData := []
  desyncData := ⟨[]⟩
  trackDesyncId := 0
  crcRes := Crc.default
  mapperRes := none

/-! ## Claim theorems -/

/-- **C1**: for a fixed world state (which fixes the registry contents)
and a fixed ordering strategy, two invocations of `calculate_crc` return
the same checksum: the computation reads the world and nothing else. -/
theorem calculate_crc_deterministic (entity_sort : World → List Entity) (w : World) :
    calculate_crc entity_sort w = calculate_crc entity_sort w := rfl

/-- **C7**: serializing a component id with no registered serializer is a
fatal failure (the `HashMap` index panics, modelled `none`); and every
component id produced by the selector `get_tracked_components` has a
registered serializer, so during fingerprint computation the failure
branch is unreachable. -/
theorem serialize_unregistered_fatal :
    (∀ (d : DesyncPluginData) (v : Value) (c : ComponentId),
        d.serialize_fn_registry.lookup c = none → d.serialize v c = none) ∧
    (∀ (w : World) (e : Entity) (l : List ComponentId),
        get_tracked_components e w = some l →
        ∀ c ∈ l, ∀ v : Value, (w.desyncData.serialize v c).isSome) := by
  constructor
  · intro d v c h
    simp [DesyncPluginData.serialize, h]
  · intro w e l hl c hc v
    exact serialize_isSome_of_registered w c v (mem_get_tracked_components hl hc).2

/-- Witness for **C7** at a concrete unregistered id and a concrete
selector output. -/
theorem serialize_unregistered_fatal_witness :
    (⟨[]⟩ : DesyncPluginData).serialize ⟨""⟩ 0 = none ∧
    ((exampleWorld.desyncData).serialize ⟨"7"⟩ 2).isSome :=
  ⟨serialize_unregistered_fatal.1 ⟨[]⟩ ⟨""⟩ 0 rfl,
    serialize_unregistered_fatal.2 exampleWorld 5 [2]
      (by simp [get_tracked_components, exampleWorld, World.get_entity, List.find?,
        List.mergeSort, List.lookup])
      2 (by decide) ⟨"7"⟩⟩

/-- **C8**: an entity that exists but does not carry the `TrackDesync`
marker is silently skipped by the entity loop of `calculate_crc`: the
step returns the accumulated input unchanged (no bytes contributed) and
does not fail. -/
theorem untracked_entity_skipped (w : World) (e : Entity) (acc : String) (a : Archetype)
    (hex : w.get_entity e = some a) (hm : a.containsComp w.trackDesyncId = false) :
    crcEntityStep w acc e = some acc := by
  unfold crcEntityStep get_tracked_components
  simp [hex, hm]

/-- Witness for **C8**: entity 7 of `noMarkWorld` exists, lacks the
marker, and is skipped. -/
theorem untracked_entity_skipped_witness :
    crcEntityStep noMarkWorld "acc" 7 = some "acc" :=
  untracked_entity_skipped noMarkWorld 7 "acc" ⟨3, [2], [7]⟩ (by rfl) (by decide)

/-- **C9** (code bug in the source): an entity yielded by the ordering
strategy that does not exist in the world makes `calculate_crc` panic —
`get_tracked_components` unwraps `world.get_entity(entity)` — instead of
skipping the entity as the specification requires.  Evaluated at the
failing input: the empty world with a strategy yielding entity 0. -/
theorem missing_entity_panics :
    calculate_crc (fun _ => [0]) emptyWorld = none := rfl

theorem string_join_nil : String.join [] = "" := rfl

theorem foldlM_serialize_eq (w : World) (e : Entity) (l : List ComponentId) :
    ∀ (acc : String),
      (∀ c ∈ l, (w.get_by_id e c).isSome) →
      (∀ c ∈ l, isRegistered w c) →
      l.foldlM (fun s c => do
          let ptr ← w.get_by_id e c
          let str ← w.desyncData.serialize ptr c
          pure (s ++ str)) acc
        = some (acc ++ String.join (l.map (specFieldStr w e))) := by
  induction l with
  | nil => intro acc _ _; simp [string_join_nil]
  | cons c l ih =>
    intro acc h1 h2
    obtain ⟨v, hv⟩ := Option.isSome_iff_exists.mp (h1 c (by simp))
    obtain ⟨s, hs⟩ := Option.isSome_iff_exists.mp
      (serialize_isSome_of_registered w c v (h2 c (by simp)))
    have hfield : specFieldStr w e c = s := by simp [specFieldStr, hv, hs]
    have ihl := ih (acc ++ s) (fun x hx => h1 x (by simp [hx]))
      (fun x hx => h2 x (by simp [hx]))
    simp only [List.foldlM_cons, Option.bind_eq_bind, Option.pure_def, hv,
      Option.some_bind, hs] at ihl ⊢
    rw [ihl]
    simp [hfield, string_join_cons, string_append_assoc]

theorem crcEntityStep_eq (w : World) (e : Entity) (acc : String) (a : Archetype)
    (hex : w.get_entity e = some a)
    (hwf : ∀ c ∈ a.componentIds, (w.get_by_id e c).isSome) :
    crcEntityStep w acc e = some (acc ++ specEntityStr w e) := by
  have htc : get_tracked_components e w = some (specSelectedFields w a) := by
    simp [get_tracked_components, hex, specSelectedFields, isRegistered]
  have hmemsel : ∀ c ∈ specSelectedFields w a, c ∈ a.componentIds ∧ isRegistered w c := by
    intro c hc
    rw [specSelectedFields, List.mem_mergeSort, List.mem_filter] at hc
    exact hc
  unfold crcEntityStep
  rw [htc]
  simp only [Option.bind_eq_bind, Option.some_bind, hex]
  by_cases hm : a.containsComp w.trackDesyncId
  · have hfold := foldlM_serialize_eq w e (specSelectedFields w a) acc
      (fun c hc => hwf c (hmemsel c hc).1) (fun c hc => (hmemsel c hc).2)
    simp only [Option.bind_eq_bind, Option.pure_def] at hfold
    simp [hm, hfold, specEntityStr, hex]
  · simp only [Bool.not_eq_true] at hm
    simp [hm, specEntityStr, hex]

theorem foldlM_crcEntityStep_eq (w : World) (l : List Entity) :
    ∀ (acc : String),
      (∀ e ∈ l, (w.get_entity e).isSome) →
      (∀ e ∈ l, w.entityDataComplete e) →
      l.foldlM (crcEntityStep w) acc
        = some (acc ++ String.join (l.map (specEntityStr w))) := by
  induction l with
  | nil => intro acc _ _; simp [string_join_nil]
  | cons e l ih =>
    intro acc h1 h2
    obtain ⟨a, ha⟩ := Option.isSome_iff_exists.mp (h1 e (by simp))
    have hdc := h2 e (by simp)
    unfold World.entityDataComplete at hdc
    rw [ha] at hdc
    simp only [Option.map_some', Option.getD_some] at hdc
    have hstep := crcEntityStep_eq w e acc a ha hdc
    have ihl := ih (acc ++ specEntityStr w e) (fun x hx => h1 x (by simp [hx]))
      (fun x hx => h2 x (by simp [hx]))
    simp only [List.foldlM_cons, Option.bind_eq_bind, hstep, Option.some_bind]
    rw [ihl]
    simp [string_join_cons, string_append_assoc]

/-- **C2**: whenever the entities produced by the ordering strategy exist
and their archetypes' components are stored (so that the source's unwraps
succeed), `calculate_crc` returns exactly the CRC-16/IBM-SDLC checksum of
the UTF-8 bytes of the delimiter-free concatenation of the serialized
tracked fields of each entity, entities in strategy order and fields in
selector order. -/
theorem calculate_crc_formula (entity_sort : World → List Entity) (w : World)
    (hex : ∀ e ∈ entity_sort w, (w.get_entity e).isSome)
    (hwf : ∀ e ∈ entity_sort w, w.entityDataComplete e) :
    calculate_crc entity_sort w
      = some (crc16_ibm_sdlc (strBytes (specConcat entity_sort w))) := by
  have h := foldlM_crcEntityStep_eq w (entity_sort w) "" hex hwf
  unfold calculate_crc
  simp [h, specConcat]

/-- Witness for **C2** on `exampleWorld` with the default strategy. -/
theorem calculate_crc_formula_witness :
    calculate_crc sort_entities_ids exampleWorld
      = some (crc16_ibm_sdlc (strBytes (specConcat sort_entities_ids exampleWorld))) :=
  calculate_crc_formula sort_entities_ids exampleWorld
    (by simp [sort_entities_ids, exampleWorld, List.mergeSort, World.get_entity,
      Archetype.containsComp, List.find?])
    (by
      intro e he
      simp only [sort_entities_ids, exampleWorld, Archetype.containsComp] at he
      norm_num [List.mergeSort] at he
      subst he
      decide)

/-- **C6**: the `Crc` resource defaults to zero, and `update_crc`
overwrites it with the checksum newly computed by `calculate_crc` on the
current world, changing nothing else of the world — no history is kept. -/
theorem update_crc_overwrites (entity_sort : World → List Entity) (w : World) (c : Nat)
    (h : calculate_crc entity_sort w = some c) :
    update_crc entity_sort w = some { w with crcRes := Crc.mk c }
      ∧ Crc.default = Crc.mk 0 := by
  refine ⟨?_, rfl⟩
  simp [update_crc, h]

/-- Witness for **C6**: on `exampleWorld` the checksum of the single
serialized field `"7"` is 46404, and `update_crc` stores it. -/
theorem update_crc_overwrites_witness :
    update_crc sort_entities_ids exampleWorld
      = some { exampleWorld with crcRes := Crc.mk 46404 }
      ∧ Crc.default = Crc.mk 0 :=
  update_crc_overwrites sort_entities_ids exampleWorld 46404
    (by simp [calculate_crc, sort_entities_ids, exampleWorld, List.mergeSort,
      crcEntityStep, get_tracked_components, World.get_entity, Archetype.containsComp,
      List.find?, World.get_by_id, DesyncPluginData.serialize, List.lookup]; decide)

theorem mem_sort_entities_ids {w : World} {e : Entity} (he : e ∈ sort_entities_ids w) :
    ∃ a ∈ w.archetypes, a.containsComp w.trackDesyncId ∧ e ∈ a.entities := by
  unfold sort_entities_ids at he
  simp only [List.mem_flatMap, List.mem_mergeSort, List.mem_filter] at he
  obtain ⟨a, ⟨ha, hm⟩, hee⟩ := he
  exact ⟨a, ha, hm, hee⟩

theorem get_entity_isSome_of_mem {w : World} {e : Entity} {a : Archetype}
    (ha : a ∈ w.archetypes) (he : e ∈ a.entities) : (w.get_entity e).isSome := by
  unfold World.get_entity
  rw [List.find?_isSome]
  exact ⟨a, ha, by simp [List.contains, he]⟩


/-- **C10**: when no entity of the world carries the `TrackDesync`
marker, or when no tracked entity has any component type present in the
serializer registry, `calculate_crc` with the default strategy returns
0 — the CRC-16/IBM-SDLC of the empty byte string — which coincides with
the default initial value of the `Crc` resource. -/
theorem no_tracked_crc_zero (w : World)
    (h : (∀ e ∈ w.iter_entities, w.entityContainsTrack e = false)
        ∨ (∀ e ∈ w.iter_entities, w.entityContainsTrack e = true →
            ∀ c ∈ ((w.get_entity e).map Archetype.componentIds).getD [],
              isRegistered w c = false)) :
    calculate_crc sort_entities_ids w = some 0 ∧ Crc.default = Crc.mk 0 := by
  refine ⟨?_, rfl⟩
  have hstep0 : ∀ e ∈ w.iter_entities, (w.get_entity e).isSome →
      ∀ acc, crcEntityStep w acc e = some acc := by
    intro e he hse acc
    obtain ⟨a', ha'⟩ := Option.isSome_iff_exists.mp hse
    by_cases hm : a'.containsComp w.trackDesyncId
    · have htr : w.entityContainsTrack e = true := by
        unfold World.entityContainsTrack
        rw [ha']
        exact hm
      have hnReg : ∀ c ∈ a'.componentIds, isRegistered w c = false := by
        rcases h with h1 | h2
        · rw [h1 e he] at htr
          simp at htr
        · have h3 := h2 e he htr
          rw [ha'] at h3
          simpa using h3
      have hfil : a'.componentIds.filter
          (fun c => (w.desyncData.serialize_fn_registry.lookup c).isSome) = [] := by
        rw [List.filter_eq_nil_iff]
        intro c hc
        have h4 := hnReg c hc
        unfold isRegistered at h4
        simp [h4]
      unfold crcEntityStep get_tracked_components
      simp [ha', hfil, hm]
    · simp only [Bool.not_eq_true] at hm
      unfold crcEntityStep get_tracked_components
      simp [ha', hm]
  have hfold : ∀ (l : List Entity),
      (∀ e ∈ l, e ∈ w.iter_entities ∧ (w.get_entity e).isSome) →
      ∀ acc, l.foldlM (crcEntityStep w) acc = some acc := by
    intro l
    induction l with
    | nil => intro _ acc; simp
    | cons e l ih =>
      intro hl acc
      obtain ⟨he, hse⟩ := hl e (by simp)
      simp only [List.foldlM_cons, Option.bind_eq_bind, hstep0 e he hse acc,
        Option.some_bind]
      exact ih (fun x hx => hl x (by simp [hx])) acc
  have hex : ∀ e ∈ sort_entities_ids w, e ∈ w.iter_entities ∧ (w.get_entity e).isSome := by
    intro e he
    obtain ⟨a, ha, _, hee⟩ := mem_sort_entities_ids he
    exact ⟨List.mem_flatMap.mpr ⟨a, ha, hee⟩, get_entity_isSome_of_mem ha hee⟩
  unfold calculate_crc
  simp only [hfold (sort_entities_ids w) hex "", Option.pure_def, Option.bind_eq_bind,
    Option.some_bind]
  decide

/-- A world with a tracked entity (entity 4, archetype with only the
marker component 1) and a nonempty registry whose single entry (9)
matches no tracked entity's component types. -/
def markerOnlyWorld : World where
  archetypes := [⟨0, [1], [4]⟩]
  componentData := [⟨4, 1, ⟨""⟩⟩]
  desyncData := ⟨[(9, fun v => v.payload)]⟩
  trackDesyncId := 1
  crcRes := Crc.default
  mapperRes := none

/-- Witness for **C10**: `markerOnlyWorld` has a tracked entity but none
of its component types is registered, and its checksum is 0. -/
theorem no_tracked_crc_zero_witness :
    calculate_crc sort_entities_ids markerOnlyWorld = some 0 ∧ Crc.default = Crc.mk 0 :=
  no_tracked_crc_zero markerOnlyWorld (Or.inr (by decide))


theorem natLeBool_trans : ∀ (x y z : Nat), (fun a b : Nat => decide (a ≤ b)) x y →
    (fun a b : Nat => decide (a ≤ b)) y z → (fun a b : Nat => decide (a ≤ b)) x z := by
  intro x y z h1 h2
  simp only [decide_eq_true_eq] at *
  omega

theorem natLeBool_total : ∀ (x y : Nat),
    ((fun a b : Nat => decide (a ≤ b)) x y || (fun a b : Nat => decide (a ≤ b)) y x) := by
  intro x y
  simp only [Bool.or_eq_true, decide_eq_true_eq]
  omega

/-- `mergeSort` by `≤` on `Nat` produces an ascending list. -/
theorem pairwise_le_mergeSort (l : List Nat) :
    (l.mergeSort (fun a b => a ≤ b)).Pairwise (fun a b : Nat => a ≤ b) := by
  have h := @List.sorted_mergeSort Nat (fun a b => decide (a ≤ b))
    natLeBool_trans natLeBool_total l
  exact h.imp (by intro x y h; simpa using h)

/-- **C4**: for an existing entity, `get_tracked_components` returns
exactly (as a multiset) the component type ids both attached to the
entity's archetype and present in the serializer registry, in ascending
order of the id. -/
theorem get_tracked_components_spec (w : World) (e : Entity) (a : Archetype)
    (hex : w.get_entity e = some a) :
    ∃ l, get_tracked_components e w = some l
      ∧ l.Perm (a.componentIds.filter (fun c => isRegistered w c))
      ∧ List.Pairwise (fun c₁ c₂ : ComponentId => c₁ ≤ c₂) l := by
  refine ⟨(a.componentIds.filter (fun c => isRegistered w c)).mergeSort (fun a b => a ≤ b),
    ?_, List.mergeSort_perm _ _, ?_⟩
  · simp [get_tracked_components, hex, isRegistered]
  · exact pairwise_le_mergeSort _

/-- Witness for **C4** at entity 5 of `exampleWorld`. -/
theorem get_tracked_components_spec_witness :
    ∃ l, get_tracked_components 5 exampleWorld = some l
      ∧ l.Perm ((Archetype.mk 0 [1, 2] [5]).componentIds.filter
          (fun c => isRegistered exampleWorld c))
      ∧ List.Pairwise (fun c₁ c₂ : ComponentId => c₁ ≤ c₂) l :=
  get_tracked_components_spec exampleWorld 5 (Archetype.mk 0 [1, 2] [5]) (by rfl)

/-- `mergeSort` by `≤` on first components produces a list ascending in
the first component. -/
theorem pairwise_fst_le_mergeSort (l : List (Entity × Entity)) :
    (l.mergeSort (fun a b => a.1 ≤ b.1)).Pairwise
      (fun p q : Entity × Entity => p.1 ≤ q.1) := by
  have htr : ∀ (x y z : Entity × Entity), decide (x.1 ≤ y.1) = true →
      decide (y.1 ≤ z.1) = true → decide (x.1 ≤ z.1) = true := by
    intro x y z h1 h2
    simp only [decide_eq_true_eq] at *
    exact Nat.le_trans h1 h2
  have hto : ∀ (x y : Entity × Entity),
      (decide (x.1 ≤ y.1) || decide (y.1 ≤ x.1)) = true := by
    intro x y
    simp only [Bool.or_eq_true, decide_eq_true_eq]
    exact Nat.le_total x.1 y.1
  have h := @List.sorted_mergeSort (Entity × Entity) (fun a b => decide (a.1 ≤ b.1))
    htr hto l
  exact h.imp (by intro x y h; simpa using h)

/-- **C5**: when the world holds the mapper resource, the `from_self`
direction of `sort_from_entity_map` returns exactly this world's entities
carrying the `TrackDesync` marker sorted ascending by this world's own
entity id, and the other direction returns the correspondence table's
entries sorted ascending by the reference-side (first) entity and then
mapped through `map_entity` to local entities. -/
theorem sort_from_entity_map_spec (w : World) (m : Mapper)
    (hm : w.mapperRes = some m) :
    (∃ l, sort_from_entity_map w true = some l
        ∧ l.Perm (w.iter_entities.filter (fun e => w.entityContainsTrack e))
        ∧ List.Pairwise (fun e₁ e₂ : Entity => e₁ ≤ e₂) l)
    ∧ (∃ ps : List (Entity × Entity), ps.Perm m.entries
        ∧ List.Pairwise (fun p q : Entity × Entity => p.1 ≤ q.1) ps
        ∧ sort_from_entity_map w false = some (ps.map (fun p => m.mapFn p.1))) := by
  constructor
  · exact ⟨(w.iter_entities.filter (fun e => w.entityContainsTrack e)).mergeSort
        (fun a b => a ≤ b),
      by simp [sort_from_entity_map, hm], List.mergeSort_perm _ _,
      pairwise_le_mergeSort _⟩
  · exact ⟨m.entries.mergeSort (fun a b => a.1 ≤ b.1), List.mergeSort_perm _ _,
      pairwise_fst_le_mergeSort _, by simp [sort_from_entity_map, hm]⟩

/-- Witness for **C5** on `exampleWorld`, whose mapper resource maps
entity 5 to itself. -/
theorem sort_from_entity_map_spec_witness :
    (∃ l, sort_from_entity_map exampleWorld true = some l
        ∧ l.Perm (exampleWorld.iter_entities.filter
            (fun e => exampleWorld.entityContainsTrack e))
        ∧ List.Pairwise (fun e₁ e₂ : Entity => e₁ ≤ e₂) l)
    ∧ (∃ ps : List (Entity × Entity), ps.Perm (Mapper.mk [(5, 5)] (fun e => e)).entries
        ∧ List.Pairwise (fun p q : Entity × Entity => p.1 ≤ q.1) ps
        ∧ sort_from_entity_map exampleWorld false
            = some (ps.map (fun p => (Mapper.mk [(5, 5)] (fun e => e)).mapFn p.1))) :=
  sort_from_entity_map_spec exampleWorld (Mapper.mk [(5, 5)] (fun e => e)) rfl

/-- The archetype id the world currently files an entity under (0 when
the entity does not exist; the theorems only use it on live entities). -/
def archIdOf (w : World) (e : Entity) : ArchetypeId :=
  ((w.get_entity e).map Archetype.id).getD 0

/-- When every entity lives in at most one archetype, `World.get_entity`
returns exactly the archetype storing it. -/
theorem get_entity_eq_of_uniq {w : World}
    (huniq : ∀ a₁ ∈ w.archetypes, ∀ a₂ ∈ w.archetypes, ∀ e ∈ a₁.entities,
      e ∈ a₂.entities → a₁ = a₂)
    {a : Archetype} {e : Entity} (ha : a ∈ w.archetypes) (he : e ∈ a.entities) :
    w.get_entity e = some a := by
  obtain ⟨a', ha'⟩ := Option.isSome_iff_exists.mp (get_entity_isSome_of_mem ha he)
  have hfind := ha'
  unfold World.get_entity at hfind
  have hmem := List.mem_of_find?_eq_some hfind
  have hp := List.find?_some hfind
  have he' : e ∈ a'.entities := by simpa [List.contains] using hp
  rw [ha', huniq a' hmem a ha e he' he]

/-- **C3**: in a world whose archetype ids are distinct and whose
archetypes partition the entities (each entity stored in one archetype),
`sort_entities_ids` returns exactly (as a multiset) the entities of the
archetypes containing the `TrackDesync` marker, ordered by ascending
archetype id and, within an archetype, by ascending entity id. -/
theorem sort_entities_ids_spec (w : World)
    (hids : (w.archetypes.map Archetype.id).Nodup)
    (huniq : ∀ a₁ ∈ w.archetypes, ∀ a₂ ∈ w.archetypes, ∀ e ∈ a₁.entities,
      e ∈ a₂.entities → a₁ = a₂) :
    (sort_entities_ids w).Perm
        ((w.archetypes.filter (fun a => a.containsComp w.trackDesyncId)).flatMap
          (fun a => a.entities))
      ∧ List.Pairwise (fun e₁ e₂ => archIdOf w e₁ < archIdOf w e₂
          ∨ (archIdOf w e₁ = archIdOf w e₂ ∧ e₁ ≤ e₂)) (sort_entities_ids w) := by
  have hsi : sort_entities_ids w
      = ((w.archetypes.filter (fun a => a.containsComp w.trackDesyncId)).mergeSort
          (fun a b => a.id ≤ b.id)).flatMap
        (fun archetype => archetype.entities.mergeSort (fun a b => a ≤ b)) := rfl
  constructor
  · rw [hsi]
    exact (List.Perm.flatMap_left _ (fun a _ => List.mergeSort_perm _ _)).trans
      ((List.mergeSort_perm _ _).flatMap_right _)
  · have hblock : ∀ a ∈ (w.archetypes.filter
          (fun a => a.containsComp w.trackDesyncId)).mergeSort (fun a b => a.id ≤ b.id),
        ∀ e ∈ a.entities.mergeSort (fun a b => a ≤ b), archIdOf w e = a.id := by
      intro a haL e he
      have haw : a ∈ w.archetypes :=
        (List.mem_filter.mp (List.mem_mergeSort.mp haL)).1
      have hee : e ∈ a.entities := List.mem_mergeSort.mp he
      unfold archIdOf
      rw [get_entity_eq_of_uniq huniq haw hee]
      rfl
    have hsorted : ((w.archetypes.filter
          (fun a => a.containsComp w.trackDesyncId)).mergeSort
          (fun a b => a.id ≤ b.id)).Pairwise
        (fun a b : Archetype => a.id ≤ b.id) := by
      have htr : ∀ (x y z : Archetype), decide (x.id ≤ y.id) = true →
          decide (y.id ≤ z.id) = true → decide (x.id ≤ z.id) = true := by
        intro x y z h1 h2
        simp only [decide_eq_true_eq] at *
        exact Nat.le_trans h1 h2
      have hto : ∀ (x y : Archetype),
          (decide (x.id ≤ y.id) || decide (y.id ≤ x.id)) = true := by
        intro x y
        simp only [Bool.or_eq_true, decide_eq_true_eq]
        exact Nat.le_total x.id y.id
      have h := @List.sorted_mergeSort Archetype (fun a b => decide (a.id ≤ b.id))
        htr hto (w.archetypes.filter (fun a => a.containsComp w.trackDesyncId))
      exact h.imp (by intro x y h; simpa using h)
    have hnd : ((w.archetypes.filter
          (fun a => a.containsComp w.trackDesyncId)).mergeSort
          (fun a b => a.id ≤ b.id)).Pairwise
        (fun a b : Archetype => a.id ≠ b.id) := by
      have h1 : ((w.archetypes.filter
          (fun a => a.containsComp w.trackDesyncId)).map Archetype.id).Nodup :=
        List.Nodup.sublist (List.Sublist.map Archetype.id (List.filter_sublist _)) hids
      have h2 := ((List.mergeSort_perm
        (w.archetypes.filter (fun a => a.containsComp w.trackDesyncId))
        (fun a b => a.id ≤ b.id)).map Archetype.id).nodup_iff.mpr h1
      exact List.pairwise_map.mp h2
    have hlt := (hsorted.and hnd).imp
      (fun h => Nat.lt_of_le_of_ne h.1 h.2)
    rw [hsi, List.pairwise_flatMap]
    constructor
    · intro a haL
      refine (pairwise_le_mergeSort a.entities).imp_of_mem ?_
      intro x y hx hy hxy
      exact Or.inr ⟨by rw [hblock a haL x hx, hblock a haL y hy], hxy⟩
    · refine hlt.imp_of_mem ?_
      intro a b ha hb hab x hx y hy
      rw [hblock a ha x hx, hblock b hb y hy]
      exact Or.inl hab

/-- Witness for **C3** on `exampleWorld`. -/
theorem sort_entities_ids_spec_witness :
    (sort_entities_ids exampleWorld).Perm
        ((exampleWorld.archetypes.filter
            (fun a => a.containsComp exampleWorld.trackDesyncId)).flatMap
          (fun a => a.entities))
      ∧ List.Pairwise
        (fun e₁ e₂ => archIdOf exampleWorld e₁ < archIdOf exampleWorld e₂
          ∨ (archIdOf exampleWorld e₁ = archIdOf exampleWorld e₂ ∧ e₁ ≤ e₂))
        (sort_entities_ids exampleWorld) :=
  sort_entities_ids_spec exampleWorld (by decide) (by decide)
